import Mathlib

/-!
Shallow embedding of the pomodoro-cli timer (Rust sources `src/pomodoro.rs`,
`src/project.rs`, `src/main.rs`).

Modelling conventions:
* Rust `u32` fields are modelled as `Nat`.  Every subtraction in the source is
  guarded by a positivity test (`remaining_secs > 0`), so no underflow occurs;
  the counters only grow by `+ 1` per one-second tick, so `u32` overflow is far
  outside the program's operating range and is not the subject of any property
  considered here.
* `Pomodoro.tick` models the effectful body of `tick` in `src/pomodoro.rs`,
  i.e. what happens once a full second has elapsed (`last_tick.elapsed() >=
  tick_rate`).  The `last_tick : Instant` debounce field is real-time plumbing
  and is dropped from the state; all properties below are about ticks that
  take effect.
* `notify` in the source spawns a fire-and-forget audio thread and never
  touches the session state.  To make the side effect observable the embedded
  state carries a ghost counter `notifications` that counts how many times the
  notification side effect has been emitted; `Pomodoro.notify` increments it
  and changes nothing else.
* The SQLite project table is modelled as a list of `Project` rows; a
  `fetch_one` returning `Err(RowNotFound)` is modelled by `none`.
-/

namespace PomodoroCli

/-- The `Mode` enum of `src/pomodoro.rs` (`Focus`, `Break`, `LongBreak`). -/
inductive Mode : Type where
  | Focus : Mode
  | Break : Mode
  | LongBreak : Mode
  deriving DecidableEq, Repr

/-- The `Project` struct of `src/project.rs`:
`{ name: String, focus_seconds: u32, total_seconds: u32 }`. -/
structure Project : Type where
  name : String
  focus_seconds : Nat
  total_seconds : Nat
  deriving DecidableEq, Repr

/-- `Project::new` of `src/project.rs`: both counters start at `0`. -/
def Project.new (name : String) : Project :=
  { name := name, focus_seconds := 0, total_seconds := 0 }

/-- The `Pomodoro` struct of `src/pomodoro.rs`, minus the real-time field
`last_tick : Instant`, plus the ghost field `notifications` counting emissions
of the audio notification side effect (see the module docstring). -/
structure Pomodoro : Type where
  mode : Mode
  focus : Nat
  break_time : Nat
  long_break : Nat
  cycles : Nat
  project : Project
  current_cycle : Nat
  remaining_secs : Nat
  running : Bool
  total_seconds : Nat
  notifications : Nat
  deriving DecidableEq, Repr

/-- `Pomodoro::new` of `src/pomodoro.rs`: mode `Focus`, cycle 1,
`remaining_secs = focus * 60`, paused, session counter 0. -/
def Pomodoro.new (focus break_time long_break cycles : Nat) (project : Project) :
    Pomodoro :=
  { mode := Mode.Focus
    focus := focus
    break_time := break_time
    long_break := long_break
    cycles := cycles
    project := project
    current_cycle := 1
    remaining_secs := focus * 60
    running := false
    total_seconds := 0
    notifications := 0 }

/-- `Pomodoro::notify` of `src/pomodoro.rs` spawns a detached audio thread and
leaves the session untouched; the embedding records the emission in the ghost
counter. -/
def Pomodoro.notify (s : Pomodoro) : Pomodoro :=
  { s with notifications := s.notifications + 1 }

/-- `Pomodoro::next` of `src/pomodoro.rs`: the three-way phase transition. -/
def Pomodoro.next (s : Pomodoro) : Pomodoro :=
  match s.mode with
  | Mode.Focus =>
      if s.current_cycle = s.cycles then
        { s with mode := Mode.LongBreak, remaining_secs := s.long_break * 60 }
      else
        { s with mode := Mode.Break, remaining_secs := s.break_time * 60 }
  | Mode.Break =>
      { s with current_cycle := s.current_cycle + 1
               mode := Mode.Focus
               remaining_secs := s.focus * 60 }
  | Mode.LongBreak =>
      { s with current_cycle := 1
               mode := Mode.Focus
               remaining_secs := s.focus * 60 }

/-- The effectful body of `Pomodoro::tick` of `src/pomodoro.rs` (the branch
taken once a full second has elapsed). -/
def Pomodoro.tick (s : Pomodoro) : Pomodoro :=
  if s.running = true ∧ 0 < s.remaining_secs then
    { s with remaining_secs := s.remaining_secs - 1
             total_seconds := s.total_seconds + 1
             project :=
               { s.project with
                   total_seconds := s.project.total_seconds + 1
                   focus_seconds :=
                     if s.mode = Mode.Focus then s.project.focus_seconds + 1
                     else s.project.focus_seconds } }
  else if s.running = true ∧ s.remaining_secs = 0 then
    s.notify.next
  else
    s

/-- `Pomodoro::reset` of `src/pomodoro.rs`: sets `current_cycle = 0`, mode
`Focus`, `remaining_secs = focus * 60`, `running = false`. -/
def Pomodoro.reset (s : Pomodoro) : Pomodoro :=
  { s with current_cycle := 0
           mode := Mode.Focus
           remaining_secs := s.focus * 60
           running := false }

/-- `Pomodoro::toggle` of `src/pomodoro.rs`: flips `running`. -/
def Pomodoro.toggle (s : Pomodoro) : Pomodoro :=
  { s with running := !s.running }

/-- The `'s'` key handler in `main` calls `pomo.next()` directly, with no
notification (`KeyCode::Char('s') => pomo.next()`). -/
def Pomodoro.skip (s : Pomodoro) : Pomodoro :=
  s.next

/-- `n` effectful ticks in sequence. -/
def Pomodoro.tickN : Nat → Pomodoro → Pomodoro
  | 0, s => s
  | n + 1, s => Pomodoro.tickN n s.tick

/-- `n` phase advances in sequence. -/
def Pomodoro.nextN : Nat → Pomodoro → Pomodoro
  | 0, s => s
  | n + 1, s => Pomodoro.nextN n s.next

/-- The session-mutating commands of the program: the per-second tick and the
key dispatches space/`s`/`r` of `main` (`toggle`, `next`, `reset`). -/
inductive Op : Type where
  | tick : Op
  | toggle : Op
  | next : Op
  | reset : Op
  deriving DecidableEq, Repr

/-- Apply one command to the session. -/
def applyOp : Op → Pomodoro → Pomodoro
  | Op.tick, s => s.tick
  | Op.toggle, s => s.toggle
  | Op.next, s => s.next
  | Op.reset, s => s.reset

/-- Apply a sequence of commands, left to right. -/
def runOps : List Op → Pomodoro → Pomodoro
  | [], s => s
  | op :: ops, s => runOps ops (applyOp op s)

/-- The SQLite `projects` table, modelled as a list of rows. -/
def getByName (name : String) (pool : List Project) : Option Project :=
  pool.find? (fun p => p.name = name)

/-- `Project::insert` of `src/project.rs`: adds a fresh row. -/
def insertProject (p : Project) (pool : List Project) : List Project :=
  pool ++ [p]

/-- The project lookup/recovery of `main` (`src/main.rs`): look the project up
by name; on success use the stored row, on record-not-found create
`Project::new(name)` and insert it immediately.  The pair returns the active
project and the updated table. -/
def getOrCreate (name : String) (pool : List Project) :
    Project × List Project :=
  match getByName name pool with
  | some p => (p, pool)
  | none =>
      let p := Project.new name
      (p, insertProject p pool)

/-- UTF-8 byte size of one character, as used by Rust's `String::len`. -/
def utf8Size (c : Char) : Nat :=
  if c.toNat < 128 then 1
  else if c.toNat < 2048 then 2
  else if c.toNat < 65536 then 3
  else 4

/-- Rust `String::len`: the UTF-8 byte length of the string. -/
def byteLen (cs : List Char) : Nat :=
  (cs.map utf8Size).sum

/-- Rust byte slicing `&name[..n]`: returns the characters covering exactly
the first `n` bytes, or `none` when `n` is not a character boundary (or past
the end), in which case the Rust expression panics. -/
def sliceTo : List Char → Nat → Option (List Char)
  | _, 0 => some []
  | [], _ + 1 => none
  | c :: rest, n + 1 =>
      if utf8Size c ≤ n + 1 then
        (sliceTo rest (n + 1 - utf8Size c)).map (fun l => c :: l)
      else
        none

/-- The `name_display` computation of `Project::ui` (`src/project.rs`, also in
`ui_projects` of `src/main.rs`): names longer than 14 bytes are truncated to
their first 11 bytes with `"..."` appended, via the unguarded byte slice
`&project.name[..11]`; `none` models the panic of a non-boundary slice. -/
def nameDisplay (name : List Char) : Option (List Char) :=
  if byteLen name > 14 then
    (sliceTo name 11).map (fun l => l ++ ("...".toList))
  else
    some name

/-! Helper lemmas -/

/-- A tick while paused changes nothing at all. -/
theorem Pomodoro.tick_paused (s : Pomodoro) (h : s.running = false) :
    s.tick = s := by
  simp [Pomodoro.tick, h]

/-- A running tick with time left takes the decrement branch. -/
theorem Pomodoro.tick_pos (s : Pomodoro) (hrun : s.running = true)
    (hpos : 0 < s.remaining_secs) :
    s.tick =
      { s with remaining_secs := s.remaining_secs - 1
               total_seconds := s.total_seconds + 1
               project :=
                 { s.project with
                     total_seconds := s.project.total_seconds + 1
                     focus_seconds :=
                       if s.mode = Mode.Focus then s.project.focus_seconds + 1
                       else s.project.focus_seconds } } := by
  simp [Pomodoro.tick, hrun, hpos]

/-- A running tick with no time left notifies and advances the phase. -/
theorem Pomodoro.tick_done (s : Pomodoro) (hrun : s.running = true)
    (hz : s.remaining_secs = 0) :
    s.tick = s.notify.next := by
  simp [Pomodoro.tick, hrun, hz]

/-- Closed form for `n` running ticks that all have time left: the countdown
drops by `n`, the project's total counter rises by `n`, its focus counter
rises by `n` exactly in `Focus` mode, and every other field is unchanged. -/
theorem Pomodoro.tickN_run (n : Nat) :
    ∀ s : Pomodoro, s.running = true → n ≤ s.remaining_secs →
      s.tickN n =
        { s with remaining_secs := s.remaining_secs - n
                 total_seconds := s.total_seconds + n
                 project :=
                   { s.project with
                       total_seconds := s.project.total_seconds + n
                       focus_seconds :=
                         s.project.focus_seconds +
                           (if s.mode = Mode.Focus then n else 0) } } := by
  induction n with
  | zero =>
      intro s _ _
      simp [Pomodoro.tickN]
  | succ n ih =>
      intro s hrun hrem
      have hpos : 0 < s.remaining_secs := by omega
      rw [Pomodoro.tickN, Pomodoro.tick_pos s hrun hpos, ih _ (by simp [hrun]) (by simp; omega)]
      by_cases hm : s.mode = Mode.Focus <;> simp [hm] <;> constructor <;> omega

/-- Peel one phase advance off the right end of `nextN`. -/
theorem Pomodoro.nextN_succ_right (n : Nat) :
    ∀ s : Pomodoro, Pomodoro.nextN (n + 1) s = (Pomodoro.nextN n s).next := by
  induction n with
  | zero => intro s; rfl
  | succ n ih =>
      intro s
      rw [Pomodoro.nextN, ih s.next]
      rfl

/-- Peel one tick off the right end of `tickN`. -/
theorem Pomodoro.tickN_succ_right (n : Nat) :
    ∀ s : Pomodoro, Pomodoro.tickN (n + 1) s = (Pomodoro.tickN n s).tick := by
  induction n with
  | zero => intro s; rfl
  | succ n ih =>
      intro s
      rw [Pomodoro.tickN, ih s.tick]
      rfl

/-- After `k < cycles` full Focus→Break round trips (two phase advances each)
from the initial state, the machine is back in `Focus` with
`current_cycle = k + 1` and everything else as at the start. -/
theorem Pomodoro.roundTrips (f b l c : Nat) (p : Project) :
    ∀ k : Nat, k < c →
      Pomodoro.nextN (2 * k) (Pomodoro.new f b l c p) =
        { Pomodoro.new f b l c p with current_cycle := k + 1 } := by
  intro k
  induction k with
  | zero =>
      intro _
      simp [Pomodoro.nextN, Pomodoro.new]
  | succ k ih =>
      intro hk
      have h2 : 2 * (k + 1) = 2 * k + 1 + 1 := by ring
      rw [h2, Pomodoro.nextN_succ_right, Pomodoro.nextN_succ_right, ih (by omega)]
      have hne : ¬(k + 1 = c) := by omega
      simp [Pomodoro.next, Pomodoro.new, hne]

/-- `next` only touches `mode`, `current_cycle` and `remaining_secs`. -/
theorem Pomodoro.next_frame (s : Pomodoro) :
    s.next.project = s.project ∧ s.next.running = s.running ∧
    s.next.notifications = s.notifications ∧ s.next.focus = s.focus ∧
    s.next.break_time = s.break_time ∧ s.next.long_break = s.long_break ∧
    s.next.cycles = s.cycles ∧ s.next.total_seconds = s.total_seconds := by
  rcases s with ⟨mode, f, b, l, c, p, cc, r, run, t, nt⟩
  cases mode <;> by_cases hc : cc = c <;> simp [Pomodoro.next, hc]

/-- `notify` followed by `next` is `next` with the notification recorded. -/
theorem Pomodoro.notify_next (s : Pomodoro) :
    s.notify.next = { s.next with notifications := s.notifications + 1 } := by
  rcases s with ⟨mode, f, b, l, c, p, cc, r, run, t, nt⟩
  cases mode <;> by_cases hc : cc = c <;> simp [Pomodoro.notify, Pomodoro.next, hc]

/-- Every session command preserves `focus_seconds ≤ total_seconds` on the
active project. -/
theorem applyOp_preserves (op : Op) (s : Pomodoro)
    (h : s.project.focus_seconds ≤ s.project.total_seconds) :
    (applyOp op s).project.focus_seconds ≤ (applyOp op s).project.total_seconds := by
  cases op with
  | tick =>
      show s.tick.project.focus_seconds ≤ s.tick.project.total_seconds
      by_cases h1 : s.running = true ∧ 0 < s.remaining_secs
      · rw [Pomodoro.tick_pos s h1.1 h1.2]
        by_cases hm : s.mode = Mode.Focus <;> simp [hm] <;> omega
      · by_cases h2 : s.running = true ∧ s.remaining_secs = 0
        · rw [Pomodoro.tick_done s h2.1 h2.2, Pomodoro.notify_next]
          have hp := (Pomodoro.next_frame s).1
          simp [hp, h]
        · have : s.tick = s := by
            rw [Pomodoro.tick]
            simp [h1, h2]
          rw [this]; exact h
  | toggle => exact h
  | next =>
      show s.next.project.focus_seconds ≤ s.next.project.total_seconds
      rw [(Pomodoro.next_frame s).1]; exact h
  | reset => exact h

/-- Running any command sequence preserves the counter invariant. -/
theorem runOps_preserves (ops : List Op) :
    ∀ s : Pomodoro, s.project.focus_seconds ≤ s.project.total_seconds →
      (runOps ops s).project.focus_seconds ≤ (runOps ops s).project.total_seconds := by
  induction ops with
  | nil => intro s h; exact h
  | cons op ops ih => intro s h; exact ih (applyOp op s) (applyOp_preserves op s h)

/-! Claim theorems -/

/-- C1: `next` follows the transition table: from `Focus` it moves to
`LongBreak` exactly when `current_cycle` equals the configured `cycles` and
otherwise to `Break`, setting `remaining_secs` to the target phase's
configured duration in seconds; from `Break` it moves to `Focus`,
incrementing `current_cycle` by 1 and setting `remaining_secs` to
`focus * 60`; from `LongBreak` it moves to `Focus`, resetting
`current_cycle` to 1 and setting `remaining_secs` to `focus * 60`. -/
theorem next_follows_transition_table (s : Pomodoro) :
    (s.mode = Mode.Focus →
        (s.current_cycle = s.cycles →
            s.next.mode = Mode.LongBreak ∧
            s.next.remaining_secs = s.long_break * 60) ∧
        (s.current_cycle ≠ s.cycles →
            s.next.mode = Mode.Break ∧
            s.next.remaining_secs = s.break_time * 60)) ∧
    (s.mode = Mode.Break →
        s.next.mode = Mode.Focus ∧
        s.next.current_cycle = s.current_cycle + 1 ∧
        s.next.remaining_secs = s.focus * 60) ∧
    (s.mode = Mode.LongBreak →
        s.next.mode = Mode.Focus ∧
        s.next.current_cycle = 1 ∧
        s.next.remaining_secs = s.focus * 60) := by
  refine ⟨fun hm => ?_, fun hm => ?_, fun hm => ?_⟩
  · by_cases hc : s.current_cycle = s.cycles <;> simp [Pomodoro.next, hm, hc]
  · simp [Pomodoro.next, hm]
  · simp [Pomodoro.next, hm]

/-- Witness for C1 at the initial 25/5/15/4 session (`Focus`, cycle 1 of 4). -/
theorem next_follows_transition_table_witness :
    (Pomodoro.new 25 5 15 4 (Project.new "none")).next.mode = Mode.Break ∧
    (Pomodoro.new 25 5 15 4 (Project.new "none")).next.remaining_secs =
      (Pomodoro.new 25 5 15 4 (Project.new "none")).break_time * 60 :=
  ((next_follows_transition_table
      (Pomodoro.new 25 5 15 4 (Project.new "none"))).1 rfl).2 (by decide)

/-- C2: a running tick with time left decrements `remaining_secs` by exactly
1, increments the active project's `total_seconds` by exactly 1, and
increments its `focus_seconds` by exactly 1 iff the phase is `Focus`; over a
sequence of `n` such ticks `total_seconds` grows by `n`, `focus_seconds`
grows by `n` in `Focus` and is unchanged in `Break`/`LongBreak`. -/
theorem tick_accrual (s : Pomodoro) (n : Nat) (hrun : s.running = true)
    (hrem : n ≤ s.remaining_secs) :
    (0 < s.remaining_secs →
        s.tick.remaining_secs = s.remaining_secs - 1 ∧
        s.tick.project.total_seconds = s.project.total_seconds + 1 ∧
        (s.tick.project.focus_seconds = s.project.focus_seconds + 1 ↔
          s.mode = Mode.Focus)) ∧
    (s.tickN n).project.total_seconds = s.project.total_seconds + n ∧
    (s.mode = Mode.Focus →
        (s.tickN n).project.focus_seconds = s.project.focus_seconds + n) ∧
    (s.mode ≠ Mode.Focus →
        (s.tickN n).project.focus_seconds = s.project.focus_seconds) := by
  rw [Pomodoro.tickN_run n s hrun hrem]
  constructor
  · intro hpos
    rw [Pomodoro.tick_pos s hrun hpos]
    by_cases hm : s.mode = Mode.Focus <;> simp [hm]
  · by_cases hm : s.mode = Mode.Focus <;> simp [hm]

/-- Witness for C2: three running Focus ticks on the 25/5/15/4 session. -/
theorem tick_accrual_witness :
    ((Pomodoro.new 25 5 15 4 (Project.new "none")).toggle.tickN 3).project.total_seconds =
      (Pomodoro.new 25 5 15 4 (Project.new "none")).toggle.project.total_seconds + 3 ∧
    ((Pomodoro.new 25 5 15 4 (Project.new "none")).toggle.tickN 3).project.focus_seconds =
      (Pomodoro.new 25 5 15 4 (Project.new "none")).toggle.project.focus_seconds + 3 :=
  ⟨(tick_accrual (Pomodoro.new 25 5 15 4 (Project.new "none")).toggle 3
      (by decide) (by decide)).2.1,
   (tick_accrual (Pomodoro.new 25 5 15 4 (Project.new "none")).toggle 3
      (by decide) (by decide)).2.2.1 rfl⟩

/-- C3 counterexample: with `cycles = 4`, reading the claim's "`cycles` full
Focus→Break round trips followed by one more Focus completion" as
`2 * cycles + 1` phase advances from the initial state, the machine is in
`Break`, not `LongBreak`: the long break actually arrives one round trip
earlier (after `2 * cycles - 1` advances). -/
theorem cycle_claim_counterexample :
    (Pomodoro.nextN (2 * 4 + 1)
        (Pomodoro.new 25 5 15 4 (Project.new "none"))).mode = Mode.Break ∧
    ¬ (Pomodoro.nextN (2 * 4 + 1)
        (Pomodoro.new 25 5 15 4 (Project.new "none"))).mode = Mode.LongBreak := by
  decide

/-- C3 amended: for positive `(focus, break_time, long_break, cycles)`, the
machine started in `Focus` with `current_cycle = 1` performs `cycles - 1`
full Focus→Break round trips (even advance counts land in `Focus` with
`current_cycle = k + 1`, odd ones in `Break`), then one more Focus
completion (advance number `2*cycles - 1`) enters `LongBreak`, and the
subsequent LongBreak completion returns to `Focus` with `current_cycle`
reset to 1. -/
theorem long_break_after_cycle_count (f b l c : Nat) (p : Project)
    (_hf : 0 < f) (_hb : 0 < b) (_hl : 0 < l) (hc : 0 < c) :
    (∀ k, k < c →
        (Pomodoro.nextN (2 * k) (Pomodoro.new f b l c p)).mode = Mode.Focus ∧
        (Pomodoro.nextN (2 * k) (Pomodoro.new f b l c p)).current_cycle = k + 1) ∧
    (∀ k, k + 1 < c →
        (Pomodoro.nextN (2 * k + 1) (Pomodoro.new f b l c p)).mode = Mode.Break) ∧
    (Pomodoro.nextN (2 * c - 1) (Pomodoro.new f b l c p)).mode = Mode.LongBreak ∧
    (Pomodoro.nextN (2 * c) (Pomodoro.new f b l c p)).mode = Mode.Focus ∧
    (Pomodoro.nextN (2 * c) (Pomodoro.new f b l c p)).current_cycle = 1 := by
  have hrt := Pomodoro.roundTrips f b l c p
  have hLB : Pomodoro.nextN (2 * c - 1) (Pomodoro.new f b l c p) =
      { Pomodoro.new f b l c p with
          mode := Mode.LongBreak
          current_cycle := c
          remaining_secs := l * 60 } := by
    have h1 : 2 * c - 1 = 2 * (c - 1) + 1 := by omega
    rw [h1, Pomodoro.nextN_succ_right, hrt (c - 1) (by omega)]
    have h2 : c - 1 + 1 = c := by omega
    simp [Pomodoro.next, Pomodoro.new, h2]
  refine ⟨fun k hk => ?_, fun k hk => ?_, ?_, ?_, ?_⟩
  · rw [hrt k hk]
    simp [Pomodoro.new]
  · rw [Pomodoro.nextN_succ_right, hrt k (by omega)]
    have hne : ¬(k + 1 = c) := by omega
    simp [Pomodoro.next, Pomodoro.new, hne]
  · rw [hLB]
  · have h3 : 2 * c = (2 * c - 1) + 1 := by omega
    rw [h3, Pomodoro.nextN_succ_right, hLB]
    simp [Pomodoro.next]
  · have h3 : 2 * c = (2 * c - 1) + 1 := by omega
    rw [h3, Pomodoro.nextN_succ_right, hLB]
    simp [Pomodoro.next]

/-- Witness for the amended C3 at the 25/5/15/4 configuration. -/
theorem long_break_after_cycle_count_witness :
    (Pomodoro.nextN (2 * 4 - 1)
        (Pomodoro.new 25 5 15 4 (Project.new "none"))).mode = Mode.LongBreak ∧
    (Pomodoro.nextN (2 * 4)
        (Pomodoro.new 25 5 15 4 (Project.new "none"))).current_cycle = 1 :=
  ⟨(long_break_after_cycle_count 25 5 15 4 (Project.new "none")
      (by decide) (by decide) (by decide) (by decide)).2.2.1,
   (long_break_after_cycle_count 25 5 15 4 (Project.new "none")
      (by decide) (by decide) (by decide) (by decide)).2.2.2.2⟩

/-- C4 counterexample: on `Config{25,5,15,4}`, starting in `Focus` cycle 1
with `remaining_secs = 1500` and `running = true`, after exactly 1500
effectful ticks the session is still in `Focus` with `remaining_secs = 0`
(not in `Break` with 300): the phase advance happens on the following tick. -/
theorem scenario_1500_ticks_counterexample :
    ¬ (Pomodoro.tickN 1500
        ((Pomodoro.new 25 5 15 4 (Project.new "none")).toggle)).mode = Mode.Break ∧
    (Pomodoro.tickN 1500
        ((Pomodoro.new 25 5 15 4 (Project.new "none")).toggle)).mode = Mode.Focus ∧
    (Pomodoro.tickN 1500
        ((Pomodoro.new 25 5 15 4 (Project.new "none")).toggle)).remaining_secs = 0 := by
  rw [Pomodoro.tickN_run 1500 _ (by decide) (by decide)]
  decide

/-- C4 amended: on `Config{25,5,15,4}`, starting in `Focus` cycle 1 with
`remaining_secs = 1500` and `running = true`, 1500 effectful ticks leave the
session in `Focus` with `remaining_secs = 0`; the 1501st tick performs the
transition, leaving the session in `Break` with `remaining_secs = 300`,
`current_cycle` still 1 and `running` still true. -/
theorem scenario_1501_ticks :
    (Pomodoro.tickN 1500
        ((Pomodoro.new 25 5 15 4 (Project.new "none")).toggle)).remaining_secs = 0 ∧
    (Pomodoro.tickN 1501
        ((Pomodoro.new 25 5 15 4 (Project.new "none")).toggle)).mode = Mode.Break ∧
    (Pomodoro.tickN 1501
        ((Pomodoro.new 25 5 15 4 (Project.new "none")).toggle)).remaining_secs = 300 ∧
    (Pomodoro.tickN 1501
        ((Pomodoro.new 25 5 15 4 (Project.new "none")).toggle)).current_cycle = 1 ∧
    (Pomodoro.tickN 1501
        ((Pomodoro.new 25 5 15 4 (Project.new "none")).toggle)).running = true := by
  have h1 : (1501 : Nat) = 1500 + 1 := by norm_num
  rw [h1, Pomodoro.tickN_succ_right 1500,
    Pomodoro.tickN_run 1500 _ (by decide) (by decide)]
  decide

/-- C5: evaluating `reset` on a mid-`Break` session with prior cycle count 3
shows the code forcing `mode = Focus`, `remaining_secs = focus * 60` and
`running = false` as the claim states, but setting `current_cycle` to `0`,
not to the `1` the spec mandates — the defect the spec itself flags. -/
theorem reset_mid_break_sets_cycle_zero :
    ({ Pomodoro.new 25 5 15 4 (Project.new "none") with
        mode := Mode.Break
        current_cycle := 3
        remaining_secs := 120
        running := true }).reset.mode = Mode.Focus ∧
    ({ Pomodoro.new 25 5 15 4 (Project.new "none") with
        mode := Mode.Break
        current_cycle := 3
        remaining_secs := 120
        running := true }).reset.remaining_secs = 25 * 60 ∧
    ({ Pomodoro.new 25 5 15 4 (Project.new "none") with
        mode := Mode.Break
        current_cycle := 3
        remaining_secs := 120
        running := true }).reset.running = false ∧
    ({ Pomodoro.new 25 5 15 4 (Project.new "none") with
        mode := Mode.Break
        current_cycle := 3
        remaining_secs := 120
        running := true }).reset.current_cycle = 0 ∧
    ¬ ({ Pomodoro.new 25 5 15 4 (Project.new "none") with
        mode := Mode.Break
        current_cycle := 3
        remaining_secs := 120
        running := true }).reset.current_cycle = 1 := by
  decide

/-- C6: the invariant `focus_seconds ≤ total_seconds` for the active project
holds at project creation (both counters 0), is preserved by every session
command (tick, toggle, next/skip, reset), and therefore holds in every
session state reachable by a command sequence from a fresh project. -/
theorem focus_le_total_invariant (nm : String) (f b l c : Nat) (ops : List Op)
    (s : Pomodoro) (op : Op)
    (h : s.project.focus_seconds ≤ s.project.total_seconds) :
    (Project.new nm).focus_seconds ≤ (Project.new nm).total_seconds ∧
    (applyOp op s).project.focus_seconds ≤ (applyOp op s).project.total_seconds ∧
    (runOps ops (Pomodoro.new f b l c (Project.new nm))).project.focus_seconds ≤
      (runOps ops (Pomodoro.new f b l c (Project.new nm))).project.total_seconds :=
  ⟨by simp [Project.new], applyOp_preserves op s h,
   runOps_preserves ops _ (by simp [Pomodoro.new, Project.new])⟩

/-- Witness for C6: toggle then one tick from the initial 25/5/15/4 session. -/
theorem focus_le_total_invariant_witness :
    (runOps [Op.toggle, Op.tick]
        (Pomodoro.new 25 5 15 4 (Project.new "none"))).project.focus_seconds ≤
      (runOps [Op.toggle, Op.tick]
        (Pomodoro.new 25 5 15 4 (Project.new "none"))).project.total_seconds :=
  (focus_le_total_invariant "none" 25 5 15 4 [Op.toggle, Op.tick]
    (Pomodoro.new 25 5 15 4 (Project.new "none")) Op.tick (by decide)).2.2

/-- C7: while `running = false`, any number of ticks leaves
`remaining_secs`, `current_cycle`, the phase and both project counters
unchanged. -/
theorem tick_paused_noop (s : Pomodoro) (n : Nat) (h : s.running = false) :
    (s.tickN n).remaining_secs = s.remaining_secs ∧
    (s.tickN n).current_cycle = s.current_cycle ∧
    (s.tickN n).mode = s.mode ∧
    (s.tickN n).project.focus_seconds = s.project.focus_seconds ∧
    (s.tickN n).project.total_seconds = s.project.total_seconds := by
  have key : s.tickN n = s := by
    induction n with
    | zero => rfl
    | succ n ih => rw [Pomodoro.tickN_succ_right, ih, Pomodoro.tick_paused s h]
  rw [key]
  exact ⟨rfl, rfl, rfl, rfl, rfl⟩

/-- Witness for C7: five ticks on the freshly created (paused) session. -/
theorem tick_paused_noop_witness :
    ((Pomodoro.new 25 5 15 4 (Project.new "none")).tickN 5).remaining_secs =
      (Pomodoro.new 25 5 15 4 (Project.new "none")).remaining_secs :=
  (tick_paused_noop (Pomodoro.new 25 5 15 4 (Project.new "none")) 5 rfl).1

/-- C8: `skip` (the `'s'` key, which calls `next` directly) never emits the
notification side effect; a running tick that finds `remaining_secs = 0`
emits exactly one notification, performs the `next` phase advance
(same resulting phase, cycle and countdown), and leaves `running`
unchanged. -/
theorem skip_no_notification (s : Pomodoro) :
    s.skip.notifications = s.notifications ∧
    (s.running = true → s.remaining_secs = 0 →
        s.tick.notifications = s.notifications + 1 ∧
        s.tick.running = s.running ∧
        s.tick.mode = s.next.mode ∧
        s.tick.current_cycle = s.next.current_cycle ∧
        s.tick.remaining_secs = s.next.remaining_secs) := by
  constructor
  · show s.next.notifications = s.notifications
    exact (Pomodoro.next_frame s).2.2.1
  · intro hrun hz
    rw [Pomodoro.tick_done s hrun hz, Pomodoro.notify_next]
    refine ⟨rfl, ?_, rfl, rfl, rfl⟩
    show s.next.running = s.running
    exact (Pomodoro.next_frame s).2.1

/-- Witness for C8: a running session at `remaining_secs = 0` notifies once. -/
theorem skip_no_notification_witness :
    ({ Pomodoro.new 25 5 15 4 (Project.new "none") with
        running := true
        remaining_secs := 0 }).tick.notifications =
      ({ Pomodoro.new 25 5 15 4 (Project.new "none") with
          running := true
          remaining_secs := 0 }).notifications + 1 :=
  ((skip_no_notification
      { Pomodoro.new 25 5 15 4 (Project.new "none") with
          running := true
          remaining_secs := 0 }).2 rfl rfl).1

/-- C9: when the lookup of a never-referenced project name reports
record-not-found, the program creates `Project::new(name)` — that name, both
counters 0 — and inserts it into the table immediately; afterwards the
lookup finds the new row. -/
theorem lookup_not_found_creates (name : String) (pool : List Project)
    (h : getByName name pool = none) :
    (getOrCreate name pool).1 = Project.new name ∧
    (getOrCreate name pool).1.name = name ∧
    (getOrCreate name pool).1.focus_seconds = 0 ∧
    (getOrCreate name pool).1.total_seconds = 0 ∧
    (getOrCreate name pool).2 = insertProject (Project.new name) pool ∧
    getByName name (getOrCreate name pool).2 = some (Project.new name) := by
  have hgc : getOrCreate name pool =
      (Project.new name, insertProject (Project.new name) pool) := by
    simp [getOrCreate, h]
  rw [hgc]
  refine ⟨rfl, rfl, rfl, rfl, rfl, ?_⟩
  show getByName name (pool ++ [Project.new name]) = some (Project.new name)
  simp only [getByName, List.find?_append]
  have h0 : pool.find? (fun p => decide (p.name = name)) = none := h
  rw [h0]
  simp [List.find?, Project.new]

/-- Witness for C9: looking up `"widget"` in a table holding only the
default `"none"` project. -/
theorem lookup_not_found_creates_witness :
    (getOrCreate "widget" [Project.new "none"]).1.focus_seconds = 0 ∧
    (getOrCreate "widget" [Project.new "none"]).1.total_seconds = 0 ∧
    (getOrCreate "widget" [Project.new "none"]).2 =
      insertProject (Project.new "widget") [Project.new "none"] :=
  ⟨(lookup_not_found_creates "widget" [Project.new "none"] (by decide)).2.2.1,
   (lookup_not_found_creates "widget" [Project.new "none"] (by decide)).2.2.2.1,
   (lookup_not_found_creates "widget" [Project.new "none"] (by decide)).2.2.2.2.1⟩

/-- C10: the overview rendering byte-slices names longer than 14 bytes at
byte 11 and appends `"..."` (shown on a 16-byte ASCII name), and the slice is
not boundary-guarded: on a name whose multi-byte character spans byte index
11 the slice panics, so the rendering is not total over valid non-empty
names. -/
theorem name_display_not_total :
    byteLen ("aaaaaaaaaa€xxxx".toList) > 14 ∧
    "aaaaaaaaaa€xxxx".toList ≠ [] ∧
    nameDisplay ("aaaaaaaaaa€xxxx".toList) = none ∧
    nameDisplay ("aaaaaaaaaaaaaaaa".toList) =
      some ("aaaaaaaaaaa".toList ++ "...".toList) := by
  decide

end PomodoroCli
